import Mathlib

/-!
Verification of the change-detection and snapshot-history subsystem of the
clinical-trial monitoring repository (src/main.py, src/diff_engine.py,
src/crawler.py).

The embedding choices:

* JSON documents (Python dicts/lists/scalars parsed by `json.load`) are the
  inductive type `JVal`.  Objects are association lists in insertion order;
  JSON numbers are modelled as integers (`Int`), which covers every value the
  claims are about.  `wfJ` is the representation invariant that every object
  has pairwise-distinct keys, which holds of every value produced by Python
  `json.load`.
* Python value equality (`==` / `!=`), which compares dicts by key lookup
  rather than entry order, is the function `pyEq`.
* The file system (snapshot files, per-id history files, per-target history
  files) is the record `SysState`; a file is `absent`, `corrupt`
  (present but not valid JSON of the expected shape) or `good`.  Writing JSON
  with `json.dump(..., indent=2, ensure_ascii=False)` is deterministic, so
  "byte-identical file content" is modelled as equality of the stored value.
* `datetime` values are seconds (as `Int`); `timedelta(days=30)` is
  `thirtyDays = 30 * 86400` seconds.  A stored timestamp string is abstracted
  by the inductive `TS`: a full `"%Y-%m-%d %H:%M:%S"` string (length > 10),
  a date-only `"%Y-%m-%d"` string, or a string that `strptime` rejects.
-/

inductive JVal where
  | str (s : String)
  | num (n : Int)
  | bool (b : Bool)
  | null
  | arr (xs : List JVal)
  | obj (fields : List (String × JVal))

mutual

def decEqJ : (a b : JVal) → Decidable (a = b)
  | .str a, .str b =>
      if h : a = b then .isTrue (by rw [h]) else .isFalse (by simp [h])
  | .num a, .num b =>
      if h : a = b then .isTrue (by rw [h]) else .isFalse (by simp [h])
  | .bool a, .bool b =>
      if h : a = b then .isTrue (by rw [h]) else .isFalse (by simp [h])
  | .null, .null => .isTrue rfl
  | .arr xs, .arr ys =>
      match decEqArr xs ys with
      | .isTrue h => .isTrue (by rw [h])
      | .isFalse h => .isFalse (by simp [h])
  | .obj fs, .obj gs =>
      match decEqFields fs gs with
      | .isTrue h => .isTrue (by rw [h])
      | .isFalse h => .isFalse (by simp [h])
  | .str _, .num _ => .isFalse (by simp)
  | .str _, .bool _ => .isFalse (by simp)
  | .str _, .null => .isFalse (by simp)
  | .str _, .arr _ => .isFalse (by simp)
  | .str _, .obj _ => .isFalse (by simp)
  | .num _, .str _ => .isFalse (by simp)
  | .num _, .bool _ => .isFalse (by simp)
  | .num _, .null => .isFalse (by simp)
  | .num _, .arr _ => .isFalse (by simp)
  | .num _, .obj _ => .isFalse (by simp)
  | .bool _, .str _ => .isFalse (by simp)
  | .bool _, .num _ => .isFalse (by simp)
  | .bool _, .null => .isFalse (by simp)
  | .bool _, .arr _ => .isFalse (by simp)
  | .bool _, .obj _ => .isFalse (by simp)
  | .null, .str _ => .isFalse (by simp)
  | .null, .num _ => .isFalse (by simp)
  | .null, .bool _ => .isFalse (by simp)
  | .null, .arr _ => .isFalse (by simp)
  | .null, .obj _ => .isFalse (by simp)
  | .arr _, .str _ => .isFalse (by simp)
  | .arr _, .num _ => .isFalse (by simp)
  | .arr _, .bool _ => .isFalse (by simp)
  | .arr _, .null => .isFalse (by simp)
  | .arr _, .obj _ => .isFalse (by simp)
  | .obj _, .str _ => .isFalse (by simp)
  | .obj _, .num _ => .isFalse (by simp)
  | .obj _, .bool _ => .isFalse (by simp)
  | .obj _, .null => .isFalse (by simp)
  | .obj _, .arr _ => .isFalse (by simp)

def decEqArr : (a b : List JVal) → Decidable (a = b)
  | [], [] => .isTrue rfl
  | [], _ :: _ => .isFalse (by simp)
  | _ :: _, [] => .isFalse (by simp)
  | x :: xs, y :: ys =>
      match decEqJ x y, decEqArr xs ys with
      | .isTrue h1, .isTrue h2 => .isTrue (by rw [h1, h2])
      | .isFalse h1, _ => .isFalse (by simp [h1])
      | _, .isFalse h2 => .isFalse (by simp [h2])

def decEqFields : (a b : List (String × JVal)) → Decidable (a = b)
  | [], [] => .isTrue rfl
  | [], _ :: _ => .isFalse (by simp)
  | _ :: _, [] => .isFalse (by simp)
  | (k1, v1) :: xs, (k2, v2) :: ys =>
      if hk : k1 = k2 then
        match decEqJ v1 v2, decEqFields xs ys with
        | .isTrue h1, .isTrue h2 => .isTrue (by rw [hk, h1, h2])
        | .isFalse h1, _ => .isFalse (by simp [h1])
        | _, .isFalse h2 => .isFalse (by simp [h2])
      else .isFalse (by simp [hk])

end

instance : DecidableEq JVal := decEqJ

/-- Lookup of a key in an object's field list (Python `dict` lookup: keys are
unique in any dict produced by `json.load`, so first match is the match). -/
def lookupField : List (String × JVal) → String → Option JVal
  | [], _ => none
  | (k, v) :: rest, key => if k = key then some v else lookupField rest key

mutual

/-- Python `==` on JSON values: scalars by value, lists pointwise in order,
dicts by size plus key-wise lookup (entry order is irrelevant). -/
def pyEq : JVal → JVal → Bool
  | .str a, .str b => a = b
  | .num a, .num b => a = b
  | .bool a, .bool b => a = b
  | .null, .null => true
  | .arr xs, .arr ys => pyEqArr xs ys
  | .obj fs, .obj gs => fs.length = gs.length && pyEqFields fs gs
  | _, _ => false

def pyEqArr : List JVal → List JVal → Bool
  | [], [] => true
  | x :: xs, y :: ys => pyEq x y && pyEqArr xs ys
  | _, _ => false

def pyEqFields : List (String × JVal) → List (String × JVal) → Bool
  | [], _ => true
  | (k, v) :: rest, gs =>
      (match lookupField gs k with
       | some w => pyEq v w
       | none => false) && pyEqFields rest gs

end

mutual

/-- Well-formedness of a JSON value: every object level has pairwise-distinct
keys.  Every value produced by Python `json.load` satisfies this. -/
def wfJ : JVal → Bool
  | .str _ => true
  | .num _ => true
  | .bool _ => true
  | .null => true
  | .arr xs => wfArr xs
  | .obj fs => wfFields fs

def wfArr : List JVal → Bool
  | [] => true
  | x :: xs => wfJ x && wfArr xs

def wfFields : List (String × JVal) → Bool
  | [] => true
  | (k, v) :: rest => (lookupField rest k).isNone && wfJ v && wfFields rest

end

/-- Python truthiness of a JSON value (`if new_data:` etc.). -/
def JVal.truthy : JVal → Bool
  | .str s => s ≠ ""
  | .num n => n ≠ 0
  | .bool b => b
  | .null => false
  | .arr xs => !xs.isEmpty
  | .obj fs => !fs.isEmpty

/-- Python truthiness of `fetch_trial_data`'s result (`None` is falsy). -/
def optTruthy : Option JVal → Bool
  | none => false
  | some v => v.truthy

/-- `dict.get(key, default)` (source always applies it to values that are
dicts in well-formed records; on a non-dict the model returns the default). -/
def JVal.getD (v : JVal) (k : String) (d : JVal) : JVal :=
  match v with
  | .obj fs => (lookupField fs k).getD d
  | _ => d

/-- Python `str.join`: `sep.join(l)`. -/
def pyJoin (sep : String) : List String → String
  | [] => ""
  | [x] => x
  | x :: y :: rest => x ++ sep ++ pyJoin sep (y :: rest)

mutual

/-- Python `repr` of a JSON value (string escaping inside literals is not
modelled; no claim depends on it). -/
def pyRepr : JVal → String
  | .str s => "\x27" ++ s ++ "\x27"
  | .num n => toString n
  | .bool b => if b then "True" else "False"
  | .null => "None"
  | .arr xs => "[" ++ pyJoin (", ") (pyReprArr xs) ++ "]"
  | .obj fs => "\x7b" ++ pyJoin (", ") (pyReprFields fs) ++ "\x7d"

def pyReprArr : List JVal → List String
  | [] => []
  | x :: xs => pyRepr x :: pyReprArr xs

def pyReprFields : List (String × JVal) → List String
  | [] => []
  | (k, v) :: rest => ("\x27" ++ k ++ "\x27: " ++ pyRepr v) :: pyReprFields rest

end

/-- Python `str` of a JSON value (`str` on a non-string delegates to `repr`). -/
def pyStr : JVal → String
  | .str s => s
  | v => pyRepr v

mutual

/-- `json.dumps(v, ensure_ascii=False)` with the default separators (string
escaping is not modelled; no claim depends on the rendered text). -/
def jdumps : JVal → String
  | .str s => "\x22" ++ s ++ "\x22"
  | .num n => toString n
  | .bool b => if b then "true" else "false"
  | .null => "null"
  | .arr xs => "[" ++ pyJoin (", ") (jdumpsArr xs) ++ "]"
  | .obj fs => "\x7b" ++ pyJoin (", ") (jdumpsFields fs) ++ "\x7d"

def jdumpsArr : List JVal → List String
  | [] => []
  | x :: xs => jdumps x :: jdumpsArr xs

def jdumpsFields : List (String × JVal) → List String
  | [] => []
  | (k, v) :: rest => ("\x22" ++ k ++ "\x22: " ++ jdumps v) :: jdumpsFields rest

end

/-- A stored timestamp string, abstracted by how
`datetime.strptime` in the 30-day scan of `process_trial` treats it:
`full t` is a `"%Y-%m-%d %H:%M:%S"` string (length > 10) denoting time `t`,
`dateOnly t` is a `"%Y-%m-%d"` string denoting midnight `t`, and
`bad s` is any other string (`strptime` raises).  Times are in seconds. -/
inductive TS where
  | full (t : Int)
  | dateOnly (t : Int)
  | bad (s : String)
  deriving DecidableEq

/-- The `datetime.strptime` step of the 30-day scan: the denoted time, or
`none` when parsing raises (in which case the scan skips the entry). -/
def parseTS : TS → Option Int
  | .full t => some t
  | .dateOnly t => some t
  | .bad _ => none

/-- Abstract rendering of the calendar date of time `t`
(stands for `strftime("%Y-%m-%d")`; no claim constrains the text). -/
def dayString (t : Int) : String := "day " ++ toString (t / 86400)

/-- `timestamp.split(' ')[0]` applied to a stored timestamp string: for the
two recognized formats this is the date part; for other strings it is the
text before the first space. -/
def TS.datePart : TS → String
  | .full t => dayString t
  | .dateOnly t => dayString t
  | .bad s => ((s.splitOn (" ")).headD s)

/-- One entry of a per-trial history file, as written by `update_history`:
`{"timestamp": ..., "diff": ...}`. -/
structure HEntry where
  timestamp : TS
  diff : String
  deriving DecidableEq

/-- One entry of a per-target history file, as written by
`update_target_history`: `{"timestamp": ..., "event": ...}`. -/
structure GEntry where
  timestamp : TS
  event : String
  deriving DecidableEq

/-- A JSON file on disk: absent, present but unreadable/malformed for the
expected shape, or holding a value. -/
inductive FileContent (α : Type) where
  | absent
  | corrupt
  | good (a : α)
  deriving DecidableEq

/-- A configured trial descriptor (`{'id': ..., 'name': ...}` from
`trials.yaml`). -/
structure Trial where
  id : String
  name : String
  deriving DecidableEq

/-- The report dict built by `process_trial` (`report_item`).
`changed_today` models presence of the `"changed_today": True` key
(`r.get('changed_today')` is falsy when the key is absent). -/
structure Report where
  id : String
  name : String
  target : String
  sponsor : JVal
  status : JVal
  conditions : String
  phases : String
  last_updated : JVal
  study_start : JVal
  study_end : JVal
  enrollment : JVal
  primary_outcome : JVal
  monitor_status : String
  last_monitored_change : String
  details : JVal
  changed_today : Bool
  deriving DecidableEq

/-- The on-disk state the subsystem reads and writes:
`snapshots id` is `data/snapshots/{id}_latest.json`,
`histories id` is `data/history/{id}_history.json`,
`targetHistories key` is `data/history/target_{key}.json` (key already
lower-cased), and `targetData key` holds the payload written by
`save_target_data` under `data/targets/{key}/` (its JSON/CSV rendering is
not modelled; no claim depends on it). -/
structure SysState where
  snapshots : String → FileContent JVal
  histories : String → FileContent (List HEntry)
  targetHistories : String → FileContent (List GEntry)
  targetData : String → Option (List Report × List (List (String × JVal)))

/-- `safe_json_load` of a per-trial history file with default `[]`:
absent or corrupt storage reads as the empty sequence. -/
def readHistory (s : SysState) (trial_id : String) : List HEntry :=
  match s.histories trial_id with
  | .good h => h
  | _ => []

/-- `update_history(trial_id, diff_text)` from src/main.py: read the current
sequence (corrupt or absent storage as `[]`), append
`{timestamp = now, diff = diff_text}`, write the full sequence back. -/
def update_history (trial_id : String) (diff_text : String) (now : Int)
    (s : SysState) : SysState :=
  let history := readHistory s trial_id
  { s with histories := fun i =>
      if i = trial_id then
        .good (history ++ [{ timestamp := TS.full now, diff := diff_text }])
      else s.histories i }

/-- `save_snapshot(trial_id, data)` from src/crawler.py: overwrite the
snapshot file for `trial_id` with the serialized data. -/
def save_snapshot (trial_id : String) (data : JVal) (s : SysState) : SysState :=
  { s with snapshots := fun i =>
      if i = trial_id then .good data else s.snapshots i }

/-- Python `str.lower` (ASCII case mapping; the repository's group names
are ASCII). -/
def pyLower (s : String) : String := String.mk (s.data.map Char.toLower)

/-- `update_target_history(target_name, current_reports)` from src/main.py:
appends an initial-collection event when the stored sequence reads empty,
else a changes-detected event when some report is flagged `changed_today`,
else neither appends nor writes. -/
def update_target_history (target_name : String) (current_reports : List Report)
    (now : Int) (s : SysState) : SysState :=
  let key := pyLower target_name
  let history : List GEntry :=
    match s.targetHistories key with
    | .good h => h
    | _ => []
  let changed_today := (current_reports.filter (fun r => r.changed_today)).map (fun r => r.id)
  let message :=
    if history.isEmpty then
      ("Initial data collection: ") ++ toString current_reports.length ++ (" trials found.")
    else if !changed_today.isEmpty then
      ("Changes detected in ") ++ toString changed_today.length ++ (" trials: ")
        ++ pyJoin (", ") changed_today
    else ("")
  if message = ("") then s
  else
    { s with targetHistories := fun k =>
        if k = key then .good (history ++ [{ timestamp := TS.full now, event := message }])
        else s.targetHistories k }

/-- The result object of the external DeepDiff library as `format_diff`
consumes it: the three categories `format_diff` reads, plus `other` for the
paths of any further DeepDiff categories (type changes, list element
changes).  The object is falsy iff all categories are empty. -/
structure DeepDiffResult where
  values_changed : List (String × JVal × JVal)
  dictionary_item_added : List String
  dictionary_item_removed : List String
  other : List String
  deriving DecidableEq

def DeepDiffResult.empty : DeepDiffResult := ⟨[], [], [], []⟩

def DeepDiffResult.append (a b : DeepDiffResult) : DeepDiffResult :=
  ⟨a.values_changed ++ b.values_changed,
   a.dictionary_item_added ++ b.dictionary_item_added,
   a.dictionary_item_removed ++ b.dictionary_item_removed,
   a.other ++ b.other⟩

/-- Python truthiness of a DeepDiff object: nonempty in some category. -/
def DeepDiffResult.truthy (d : DeepDiffResult) : Bool :=
  !d.values_changed.isEmpty || !d.dictionary_item_added.isEmpty
    || !d.dictionary_item_removed.isEmpty || !d.other.isEmpty

/-- DeepDiff path of a child key: `path['k']`. -/
def childPath (p k : String) : String := p ++ ("[\x27") ++ k ++ ("\x27]")

/-- Remove the first element `pyEq`-equal to `x`, if any. -/
def removeFirstEq (x : JVal) : List JVal → Option (List JVal)
  | [] => none
  | y :: ys => if pyEq x y then some ys else (removeFirstEq x ys).map (y :: ·)

/-- Multiset equality of two lists up to `pyEq` (DeepDiff is run with
`ignore_order=True`). -/
def bagEq : List JVal → List JVal → Bool
  | [], ys => ys.isEmpty
  | x :: xs, ys =>
      match removeFirstEq x ys with
      | some ys2 => bagEq xs ys2
      | none => false

mutual

/-- Modelled from the spec: the external DeepDiff library (absent from this
repository) computes "a structural difference ignoring list-ordering" with
"categorized entries: values changed (old/new pair per path), keys added,
keys removed".  Equal (Python `==`) subtrees contribute nothing; unequal
dicts are decomposed key-wise; unequal lists and type changes fall into the
`other` categories that `format_diff` does not read. -/
def deepDiff (p : String) (old new : JVal) : DeepDiffResult :=
  if pyEq old new then .empty else
  match old, new with
  | .obj fs, .obj gs =>
      let removed := fs.filterMap fun kv =>
        if (lookupField gs kv.1).isNone then some (childPath p kv.1) else none
      let added := gs.filterMap fun kv =>
        if (lookupField fs kv.1).isNone then some (childPath p kv.1) else none
      (deepDiffFields p fs gs).append ⟨[], added, removed, []⟩
  | .arr xs, .arr ys =>
      if bagEq xs ys then .empty else ⟨[], [], [], [p]⟩
  | .str _, .str _ => ⟨[(p, old, new)], [], [], []⟩
  | .num _, .num _ => ⟨[(p, old, new)], [], [], []⟩
  | .bool _, .bool _ => ⟨[(p, old, new)], [], [], []⟩
  | .null, .null => .empty
  | _, _ => ⟨[], [], [], [p]⟩

def deepDiffFields (p : String) (fs gs : List (String × JVal)) : DeepDiffResult :=
  match fs with
  | [] => .empty
  | (k, v) :: rest =>
      (match lookupField gs k with
       | some w => deepDiff (childPath p k) v w
       | none => .empty).append (deepDiffFields p rest gs)

end

/-- The value returned by `compare_snapshots` when a prior snapshot was
readable: a DeepDiff object in full mode, or the fallback dict of
`label -> {"old": ..., "new": ...}` entries in fallback mode. -/
inductive Diff where
  | deep (d : DeepDiffResult)
  | fallback (entries : List (String × JVal × JVal))
  deriving DecidableEq

/-- Python truthiness of `process_trial`s `diff` value (`if diff:`):
`None` and an empty DeepDiff object are falsy; the fallback branch only
ever returns `None` or a nonempty dict. -/
def diffTruthy : Option Diff → Bool
  | none => false
  | some (.deep d) => d.truthy
  | some (.fallback es) => !es.isEmpty

/-- The fixed watch-list of fallback mode (`fields_to_watch` in
src/diff_engine.py), in source order. -/
def fields_to_watch : List (String × List String) :=
  [(("Status"), [("statusModule"), ("overallStatus")]),
   (("Phase"), [("designModule"), ("phases")]),
   (("Completion Date"), [("statusModule"), ("completionDateStruct"), ("date")]),
   (("Sponsor"), [("sponsorCollaboratorsModule"), ("leadSponsor"), ("name")]),
   (("Start Date"), [("statusModule"), ("startDateStruct"), ("date")]),
   (("Enrollment"), [("designModule"), ("enrollmentInfo"), ("count")])]

/-- The per-key walk of fallback mode:
`ov = ov.get(key, {}) if isinstance(ov, dict) else {}` folded over a path. -/
def walkPath (v : JVal) (path : List String) : JVal :=
  path.foldl
    (fun acc key =>
      match acc with
      | .obj fs => (lookupField fs key).getD (JVal.obj [])
      | _ => JVal.obj [])
    v

/-- `compare_snapshots(trial_id, new_data)` from src/diff_engine.py.
`hasDD` is the `HAS_DEEPDIFF` capability flag.  Returns `none` when no prior
snapshot exists, when the prior snapshot is unreadable, or (fallback mode)
when no watched field differs. -/
def compare_snapshots (hasDD : Bool) (trial_id : String) (new_data : JVal)
    (s : SysState) : Option Diff :=
  match s.snapshots trial_id with
  | .absent => none
  | .corrupt => none
  | .good old_data =>
      let old_protocol := old_data.getD ("protocolSection") (.obj [])
      let new_protocol := new_data.getD ("protocolSection") (.obj [])
      if hasDD then some (.deep (deepDiff ("root") old_protocol new_protocol))
      else
        let fallback_diff := fields_to_watch.filterMap fun lp =>
          let ov := walkPath old_protocol lp.2
          let nv := walkPath new_protocol lp.2
          if pyEq ov nv then none else some (lp.1, ov, nv)
        if fallback_diff.isEmpty then none else some (.fallback fallback_diff)

/-- The character `.` (Python `strip(".")`). -/
def dotChar : Char := Char.ofNat 46

/-- Python `s.endswith(t)`, on code points. -/
def pyEndsWith (s t : String) : Bool := t.data.isSuffixOf s.data

/-- Python `s.startswith(t)`, on code points. -/
def pyStartsWith (s t : String) : Bool := t.data.isPrefixOf s.data

/-- Python `s[n:]`, on code points. -/
def pyDrop (s : String) (n : Nat) : String := String.mk (s.data.drop n)

/-- Replace every non-overlapping occurrence of `ol` (left to right) by `nw`.
The fuel argument (instantiated with the length of the text) makes the
recursion structural; each step consumes at least one character, so the fuel
never runs out on the calls `pyReplace` makes. -/
def replaceListAux (ol nw : List Char) : Nat → List Char → List Char
  | 0, s => s
  | _ + 1, [] => []
  | fuel + 1, c :: rest =>
      if ol.isPrefixOf (c :: rest) && !ol.isEmpty then
        nw ++ replaceListAux ol nw fuel ((c :: rest).drop ol.length)
      else c :: replaceListAux ol nw fuel rest

/-- Python `s.replace(old, new)` (all occurrences), on code points. -/
def pyReplace (s ol nw : String) : String :=
  String.mk (replaceListAux ol.data nw.data s.data.length s.data)

/-- Python `s.strip(".")`: remove leading and trailing dots. -/
def stripDots (s : String) : String :=
  String.mk (((s.data.dropWhile (fun c => c = dotChar)).reverse.dropWhile
    (fun c => c = dotChar)).reverse)

/-- The path clean-up of `format_diff`:
`path.replace("root", "").replace("['", "").replace("']", ".").strip(".")`. -/
def cleanPath (p : String) : String :=
  stripDots (pyReplace (pyReplace (pyReplace p ("root") ("")) ("[\x27") (""))
    ("\x27]") ("."))

/-- One `values_changed` line of `format_diff`. -/
def vcLine (e : String × JVal × JVal) : String :=
  ("Field `") ++ cleanPath e.1 ++ ("` changed from `") ++ pyStr e.2.1
    ++ ("` to `") ++ pyStr e.2.2 ++ ("`")

/-- One `dictionary_item_added` line of `format_diff`. -/
def addLine (p : String) : String := ("New field added: `") ++ p ++ ("`")

/-- One `dictionary_item_removed` line of `format_diff`. -/
def remLine (p : String) : String := ("Field removed: `") ++ p ++ ("`")

/-- One line of the fallback branch of `format_diff`. -/
def fallbackLine (e : String × JVal × JVal) : String :=
  e.1 ++ (": `") ++ pyStr e.2.1 ++ ("` -> `") ++ pyStr e.2.2 ++ ("`")

/-- `format_diff(diff)` from src/diff_engine.py.  The branch on
`HAS_DEEPDIFF` is determined by the constructor of the diff value, which
records the mode it was produced under. -/
def format_diff : Option Diff → String
  | none => ""
  | some (.fallback es) =>
      if es.isEmpty then "" else pyJoin ("\n") (es.map fallbackLine)
  | some (.deep d) =>
      if !d.truthy then ""
      else
        let summary := d.values_changed.map vcLine
          ++ d.dictionary_item_added.map addLine
          ++ d.dictionary_item_removed.map remLine
        if summary.isEmpty then ("Minor formatting updates.")
        else pyJoin ("\n") summary

/-- `isinstance(i, (str, int, float, bool))` in `flatten_dict`. -/
def isScalar : JVal → Bool
  | .str _ => true
  | .num _ => true
  | .bool _ => true
  | _ => false

/-- Python `d[k] = v`: update the value in place if the key exists, else
append the new pair. -/
def pyDictInsert (d : List (String × JVal)) (k : String) (v : JVal) :
    List (String × JVal) :=
  match d with
  | [] => [(k, v)]
  | (k1, v1) :: rest =>
      if k1 = k then (k1, v) :: rest else (k1, v1) :: pyDictInsert rest k v

/-- Python `dict(items)`: left-to-right insertion, so the value of a
duplicated key is the last one and its position is the first occurrence. -/
def pyDictOfList (items : List (String × JVal)) : List (String × JVal) :=
  items.foldl (fun acc kv => pyDictInsert acc kv.1 kv.2) []

/-- The top-level section renaming of `flatten_dict` (applies only when
`parent_key == ''`). -/
def sectionRename (k : String) : String :=
  if k = ("protocolSection") then ("Prot")
  else if k = ("derivedSection") then ("Deriv")
  else if k = ("annotationSection") then ("Annot")
  else if k = ("resultsSection") then ("Res")
  else k

/-- The prefix-stripping loop of `flatten_dict`. -/
def stripPrefixes (key : String) : String :=
  [("Prot_"), ("Deriv_"), ("Annot_"), ("Res_")].foldl
    (fun acc p => if pyStartsWith acc p then pyDrop acc p.length else acc) key

mutual

/-- The items one value contributes to `flatten_dict`s `items` list: a
nested dict contributes the items of the recursive `flatten_dict` call
(that is, of its returned dict), a list of scalars is joined with `", "`,
any other list is JSON-serialized, and a scalar is kept as is. -/
def flattenVal (v : JVal) (new_key sep : String) : List (String × JVal) :=
  match v with
  | .obj fs => pyDictOfList (flattenItems fs new_key sep)
  | .arr xs =>
      if xs.all isScalar then [(new_key, .str (pyJoin (", ") (xs.map pyStr)))]
      else [(new_key, .str (jdumps (.arr xs)))]
  | _ => [(new_key, v)]

/-- The `items` list accumulated by one call of `flatten_dict` from
src/main.py (key cleaning, section renaming and prefix stripping as in the
source, then the per-value items). -/
def flattenItems (d : List (String × JVal)) (parent_key sep : String) :
    List (String × JVal) :=
  match d with
  | [] => []
  | (k, v) :: rest =>
      let c1 := if parent_key = ("") then sectionRename k else k
      let c2 := if pyEndsWith k ("Module") then pyReplace k ("Module") ("") else c1
      let clean_k := if pyEndsWith k ("Struct") then pyReplace k ("Struct") ("") else c2
      let nk0 := if parent_key = ("") then clean_k else parent_key ++ sep ++ clean_k
      let new_key := stripPrefixes nk0
      flattenVal v new_key sep ++ flattenItems rest parent_key sep

end

/-- `flatten_dict(d, parent_key, sep)` from src/main.py: the returned dict
(`dict(items)`), as an association list with unique keys. -/
def flatten_dict (d : List (String × JVal)) (parent_key sep : String) :
    List (String × JVal) :=
  pyDictOfList (flattenItems d parent_key sep)

/-- `timedelta(days=30)` in seconds. -/
def thirtyDays : Int := 30 * 86400

/-- One iteration of `process_trial`s 30-day scan: the entry is not the
initial-collection marker, its timestamp parses, and the parsed time is
strictly after `now - 30 days`. -/
def recentQual (now : Int) (e : HEntry) : Bool :=
  (decide (e.diff ≠ ("Initial data collection"))) &&
    (match parseTS e.timestamp with
     | some t => decide (now - thirtyDays < t)
     | none => false)

/-- The fields of a JSON object (`flatten_dict` iterates `d.items()`;
`process_trial` only ever passes it the fetched record, a dict). -/
def objFields : JVal → List (String × JVal)
  | .obj fs => fs
  | _ => []

/-- The elements of a JSON array rendered with `str` for a
`", ".join(...)` (the source only joins lists of strings). -/
def strElems : JVal → List String
  | .arr xs => xs.map pyStr
  | _ => []

/-- `process_trial(trial, target_name)` from src/main.py, for one trial.
`hasDD` is the `HAS_DEEPDIFF` flag, `now` the current time, `fetched` the
result of `fetch_trial_data(trial['id'])`.  Returns the
`(report_item, raw_data)` pair (both `none` when the trial is skipped) and
the resulting on-disk state. -/
def process_trial (hasDD : Bool) (now : Int) (fetched : Option JVal)
    (trial : Trial) (target_name : String) (s : SysState) :
    (Option Report × Option (List (String × JVal))) × SysState :=
  let nd1 :=
    if optTruthy fetched then fetched
    else
      match s.snapshots trial.id with
      | .good v => some v
      | _ => none
  match nd1 with
  | none => ((none, none), s)
  | some new_data =>
    if new_data.truthy = false then ((none, none), s)
    else
      let raw_data := pyDictInsert (flatten_dict (objFields new_data) ("") ("_"))
        ("_target") (.str target_name)
      let protocol := new_data.getD ("protocolSection") (.obj [])
      let status_mod := protocol.getD ("statusModule") (.obj [])
      let sponsor := ((protocol.getD ("sponsorCollaboratorsModule") (.obj [])).getD
        ("leadSponsor") (.obj [])).getD ("name") (.str ("N/A"))
      let start_date := (status_mod.getD ("startDateStruct") (.obj [])).getD
        ("date") (.str ("N/A"))
      let end_date := (status_mod.getD ("completionDateStruct") (.obj [])).getD
        ("date") (.str ("N/A"))
      let enrollment := ((protocol.getD ("designModule") (.obj [])).getD
        ("enrollmentInfo") (.obj [])).getD ("count") (.str ("N/A"))
      let primary_outcomes := (protocol.getD ("outcomesModule") (.obj [])).getD
        ("primaryOutcomes") (.arr [])
      let primary_outcome :=
        if primary_outcomes.truthy then
          match primary_outcomes with
          | .arr (x :: _) => x.getD ("measure") (.str ("N/A"))
          | _ => .str ("N/A")
        else .str ("N/A")
      let study_status := status_mod.getD ("overallStatus") (.str ("N/A"))
      let last_submit_date := status_mod.getD ("lastUpdateSubmitDate") (.str ("N/A"))
      let conditions_list := (protocol.getD ("conditionsModule") (.obj [])).getD
        ("conditions") (.arr [])
      let conditions :=
        if conditions_list.truthy then pyJoin (", ") (strElems conditions_list)
        else ("N/A")
      let phases_list := (protocol.getD ("designModule") (.obj [])).getD
        ("phases") (.arr [])
      let phases :=
        if phases_list.truthy then pyJoin (", ") (strElems phases_list) else ("N/A")
      let detailed_desc := (protocol.getD ("descriptionModule") (.obj [])).getD
        ("detailedDescription")
        ((protocol.getD ("descriptionModule") (.obj [])).getD ("briefSummary")
          (.str ("N/A")))
      let diff := compare_snapshots hasDD trial.id new_data s
      let report0 : Report :=
        { id := trial.id, name := trial.name, target := target_name,
          sponsor := sponsor, status := study_status, conditions := conditions,
          phases := phases, last_updated := last_submit_date,
          study_start := start_date, study_end := end_date,
          enrollment := enrollment, primary_outcome := primary_outcome,
          monitor_status := ("No Change"),
          last_monitored_change := ("No changes yet"),
          details := detailed_desc, changed_today := false }
      let step1 : Report × SysState :=
        if diffTruthy diff then
          let diff_text := format_diff diff
          ({ report0 with
              changed_today := true,
              last_monitored_change := dayString now,
              details := .str (("**[RECENT CHANGES FOUND]**\n") ++ diff_text
                ++ ("\n\n***\n") ++ pyStr detailed_desc) },
            update_history trial.id diff_text now s)
        else if s.histories trial.id = FileContent.absent then
          (report0, update_history trial.id ("Initial data collection") now s)
        else (report0, s)
      let report1 := step1.1
      let s1 := step1.2
      let history := readHistory s1 trial.id
      let report2 :=
        match history.getLast? with
        | none => report1
        | some lastE =>
            let r1 := { report1 with last_monitored_change := lastE.timestamp.datePart }
            if history.reverse.any (recentQual now) then
              { r1 with monitor_status := ("Changed") }
            else r1
      let s2 := save_snapshot trial.id new_data s1
      ((some report2, some raw_data), s2)

/-- `save_target_data(target_name, summary_report, all_raw_data)` from
src/main.py: stores the per-target summary payload (the JSON/CSV rendering
of the files under `data/targets/{name}/` is not modelled). -/
def save_target_data (target_name : String) (summary : List Report)
    (raws : List (List (String × JVal))) (s : SysState) : SysState :=
  { s with targetData := fun k =>
      if k = pyLower target_name then some (summary, raws) else s.targetData k }

/-- Whether a fetch result counts as a successful fetch in
`process_trial` (`new_data` present and truthy, so no fallback is needed). -/
def fetchOK (fetch : String → Option JVal) (t : Trial) : Bool :=
  match fetch t.id with
  | some v => v.truthy
  | none => false

/-- One completion-handling step of the per-target loop of `main()`:
process the trial against the current state, and append the truthy report
and raw row to the aggregates. -/
def groupStep (hasDD : Bool) (now : Int) (fetch : String → Option JVal)
    (target_name : String)
    (acc : List Report × List (List (String × JVal)) × SysState) (t : Trial) :
    List Report × List (List (String × JVal)) × SysState :=
  let r := process_trial hasDD now (fetch t.id) t target_name acc.2.2
  let reports :=
    match r.1.1 with
    | some rep => acc.1 ++ [rep]
    | none => acc.1
  let raws :=
    match r.1.2 with
    | some raw => if raw.isEmpty then acc.2.1 else acc.2.1 ++ [raw]
    | none => acc.2.1
  (reports, raws, r.2)

/-- The per-target loop of `main()` from src/main.py: process every trial of
the target, collect the truthy reports and raw rows, then (when any report
was produced) save the target data and update the target history.  The
thread pool is modelled as a sequential fold: the claims proved about it
(report multiplicity, ledger growth) are insensitive to completion order,
and per-trial state is keyed by trial id. -/
def processGroup (hasDD : Bool) (now : Int) (fetch : String → Option JVal)
    (target_name : String) (trials : List Trial) (s : SysState) :
    (List Report × List (List (String × JVal))) × SysState :=
  let res := trials.foldl (groupStep hasDD now fetch target_name) ([], [], s)
  let s2 :=
    if res.1.isEmpty then res.2.2
    else update_target_history target_name res.1 now
      (save_target_data target_name res.1 res.2.1 res.2.2)
  ((res.1, res.2.1), s2)

/-- The backtick character, present in every line `format_diff` emits. -/
def btick : Char := Char.ofNat 96

/-- The history-file update performed by `process_trial` once fetched data is
available: append the formatted diff when a change was detected, else
initialize the history when no history file exists, else leave the state
alone. -/
def histStep (hasDD : Bool) (now : Int) (trial_id : String) (nd : JVal)
    (s : SysState) : SysState :=
  let diff := compare_snapshots hasDD trial_id nd s
  if diffTruthy diff then update_history trial_id (format_diff diff) now s
  else if s.histories trial_id = FileContent.absent then
    update_history trial_id ("Initial data collection") now s
  else s

/-- The state of a fresh deployment: no snapshot, history or target files. -/
def emptyState : SysState :=
  ⟨fun _ => .absent, fun _ => .absent, fun _ => .absent, fun _ => none⟩

def sampleTrial : Trial := ⟨("NCT00000001"), ("Sample trial")⟩

def sampleRecord : JVal :=
  .obj [(("protocolSection"), .obj [(("statusModule"),
    .obj [(("overallStatus"), .str ("RECRUITING"))])])]

def sampleRecord2 : JVal :=
  .obj [(("protocolSection"), .obj [(("statusModule"),
    .obj [(("overallStatus"), .str ("COMPLETED"))])])]

/-- A state whose history file for the sample trial is corrupt. -/
def corruptHistState : SysState :=
  ⟨fun _ => .absent,
   fun i => if i = ("NCT00000001") then .corrupt else .absent,
   fun _ => .absent, fun _ => none⟩

/-- A concrete report that is not flagged changed in the current run. -/
def sampleReport : Report :=
  { id := ("NCT00000001"), name := ("Sample trial"), target := ("TIGIT"),
    sponsor := .str ("N/A"), status := .str ("RECRUITING"),
    conditions := ("N/A"), phases := ("N/A"), last_updated := .str ("N/A"),
    study_start := .str ("N/A"), study_end := .str ("N/A"),
    enrollment := .str ("N/A"), primary_outcome := .str ("N/A"),
    monitor_status := ("No Change"), last_monitored_change := ("No changes yet"),
    details := .str ("N/A"), changed_today := false }

/-- A state whose target ledger for "tigit" already has an initial entry. -/
def groupState : SysState :=
  ⟨fun _ => .absent, fun _ => .absent,
   fun k => if k = ("tigit") then
       .good [{ timestamp := TS.full 500,
                event := ("Initial data collection: 1 trials found.") }]
     else .absent,
   fun _ => none⟩

/-- A state whose stored snapshot for the sample trial equals the fetched
record and whose history holds a non-initial event 10 days old
(now = day 100, event = day 90). -/
def histState10 : SysState :=
  ⟨fun i => if i = ("NCT00000001") then .good sampleRecord else .absent,
   fun i => if i = ("NCT00000001") then
       .good [{ timestamp := TS.full 5184000, diff := ("Initial data collection") },
              { timestamp := TS.full 7776000, diff := ("Status: updated") }]
     else .absent,
   fun _ => .absent, fun _ => none⟩

/-- Like `histState10`, but the most recent non-initial event is 40 days old
(now = day 100, event = day 60) with nothing since. -/
def histState40 : SysState :=
  ⟨fun i => if i = ("NCT00000001") then .good sampleRecord else .absent,
   fun i => if i = ("NCT00000001") then
       .good [{ timestamp := TS.full 1000, diff := ("Initial data collection") },
              { timestamp := TS.full 5184000, diff := ("Status: updated") }]
     else .absent,
   fun _ => .absent, fun _ => none⟩

/-- Ten configured trials with distinct ids. -/
def trials10 : List Trial :=
  [⟨("T01"), ("Trial 01")⟩, ⟨("T02"), ("Trial 02")⟩, ⟨("T03"), ("Trial 03")⟩,
   ⟨("T04"), ("Trial 04")⟩, ⟨("T05"), ("Trial 05")⟩, ⟨("T06"), ("Trial 06")⟩,
   ⟨("T07"), ("Trial 07")⟩, ⟨("T08"), ("Trial 08")⟩, ⟨("T09"), ("Trial 09")⟩,
   ⟨("T10"), ("Trial 10")⟩]

/-- A fetcher for which exactly three of the ten trials fail (null). -/
def fetch10 : String → Option JVal := fun id =>
  if id = ("T03") ∨ id = ("T06") ∨ id = ("T09") then none else some sampleRecord

theorem lookupField_isSome_of_mem {fs : List (String × JVal)} {k : String}
    {v : JVal} (h : (k, v) ∈ fs) : (lookupField fs k).isSome := by
  induction fs with
  | nil => cases h
  | cons p rest ih =>
      obtain ⟨k1, v1⟩ := p
      rcases List.mem_cons.mp h with h1 | h1
      · cases h1; simp [lookupField]
      · by_cases hk : k1 = k <;> simp [lookupField, hk, ih h1]

theorem wfFields_lookup {fs : List (String × JVal)} {k : String} {w : JVal}
    (hw : wfFields fs = true) (h : lookupField fs k = some w) : wfJ w = true := by
  induction fs with
  | nil => simp [lookupField] at h
  | cons p rest ih =>
      obtain ⟨k1, v1⟩ := p
      rw [wfFields] at hw
      simp only [Bool.and_eq_true] at hw
      rw [lookupField] at h
      by_cases hk : k1 = k
      · rw [if_pos hk] at h
        cases h
        exact hw.1.2
      · rw [if_neg hk] at h
        exact ih hw.2 h

theorem wfFields_lookup_of_mem {fs : List (String × JVal)} {k : String}
    {v : JVal} (hw : wfFields fs = true) (h : (k, v) ∈ fs) :
    lookupField fs k = some v := by
  induction fs with
  | nil => cases h
  | cons p rest ih =>
      obtain ⟨k1, v1⟩ := p
      rw [wfFields] at hw
      simp only [Bool.and_eq_true] at hw
      rcases List.mem_cons.mp h with h1 | h1
      · cases h1; simp [lookupField]
      · by_cases hk : k1 = k
        · exfalso
          subst hk
          have := lookupField_isSome_of_mem h1
          rw [Option.isNone_iff_eq_none.mp hw.1.1] at this
          cases this
        · rw [lookupField, if_neg hk]
          exact ih hw.2 h1

theorem wfFields_mem_wf {fs : List (String × JVal)} {k : String} {v : JVal}
    (hw : wfFields fs = true) (h : (k, v) ∈ fs) : wfJ v = true :=
  wfFields_lookup hw (wfFields_lookup_of_mem hw h)

theorem wfArr_mem {xs : List JVal} {x : JVal} (hw : wfArr xs = true)
    (h : x ∈ xs) : wfJ x = true := by
  induction xs with
  | nil => cases h
  | cons y ys ih =>
      rw [wfArr] at hw
      simp only [Bool.and_eq_true] at hw
      rcases List.mem_cons.mp h with h1 | h1
      · cases h1; exact hw.1
      · exact ih hw.2 h1

theorem pyEqArr_self {xs : List JVal} (h : ∀ x ∈ xs, pyEq x x = true) :
    pyEqArr xs xs = true := by
  induction xs with
  | nil => rw [pyEqArr]
  | cons y ys ih =>
      rw [pyEqArr, Bool.and_eq_true]
      exact ⟨h y (by simp), ih fun x hx => h x (by simp [hx])⟩

theorem pyEqFields_sub {gs : List (String × JVal)} (hw : wfFields gs = true) :
    ∀ rest : List (String × JVal), (∀ p ∈ rest, p ∈ gs) →
      (∀ p ∈ rest, pyEq p.2 p.2 = true) → pyEqFields rest gs = true := by
  intro rest
  induction rest with
  | nil => intro _ _; rw [pyEqFields]
  | cons p ps ih =>
      intro hmem hrefl
      obtain ⟨k, v⟩ := p
      rw [pyEqFields, Bool.and_eq_true]
      constructor
      · rw [wfFields_lookup_of_mem hw (hmem (k, v) (by simp))]
        exact hrefl (k, v) (by simp)
      · exact ih (fun q hq => hmem q (by simp [hq]))
          (fun q hq => hrefl q (by simp [hq]))

theorem jval_sizeOf_pos (v : JVal) : 0 < sizeOf v := by
  cases v <;> simp

theorem pyEq_refl_aux : ∀ n : Nat, ∀ v : JVal, sizeOf v ≤ n →
    wfJ v = true → pyEq v v = true := by
  intro n
  induction n with
  | zero =>
      intro v hv _
      have := jval_sizeOf_pos v
      omega
  | succ n ih =>
      intro v hv hw
      cases v with
      | str s => rw [pyEq]; simp
      | num m => rw [pyEq]; simp
      | bool b => rw [pyEq]; simp
      | null => rw [pyEq]
      | arr xs =>
          rw [pyEq]
          rw [wfJ] at hw
          refine pyEqArr_self fun x hx => ih x ?_ (wfArr_mem hw hx)
          have h1 := List.sizeOf_lt_of_mem hx
          simp only [JVal.arr.sizeOf_spec] at hv
          omega
      | obj fs =>
          rw [pyEq, Bool.and_eq_true]
          rw [wfJ] at hw
          refine ⟨by simp, pyEqFields_sub hw fs (fun p hp => hp) fun p hp => ?_⟩
          obtain ⟨a, b⟩ := p
          have hwb : wfJ b = true := wfFields_mem_wf hw hp
          have h1 := List.sizeOf_lt_of_mem hp
          have h2 : sizeOf b < sizeOf (a, b) := by
            simp only [Prod.mk.sizeOf_spec]
            omega
          simp only [JVal.obj.sizeOf_spec] at hv
          exact ih b (by omega) hwb

/-- Python `==` is reflexive on well-formed JSON values (dicts with
duplicate keys cannot arise from `json.load`). -/
theorem pyEq_self (v : JVal) (hw : wfJ v = true) : pyEq v v = true :=
  pyEq_refl_aux (sizeOf v) v le_rfl hw

theorem wfJ_getD {v d : JVal} (hv : wfJ v = true) (hd : wfJ d = true)
    (k : String) : wfJ (v.getD k d) = true := by
  cases v with
  | obj fs =>
      rw [JVal.getD]
      cases h : lookupField fs k with
      | none => simpa using hd
      | some w =>
          rw [wfJ] at hv
          simpa using wfFields_lookup hv h
  | str s => simpa [JVal.getD] using hd
  | num n => simpa [JVal.getD] using hd
  | bool b => simpa [JVal.getD] using hd
  | null => simpa [JVal.getD] using hd
  | arr xs => simpa [JVal.getD] using hd

theorem wfJ_walkPath {v : JVal} (hv : wfJ v = true) (path : List String) :
    wfJ (walkPath v path) = true := by
  induction path generalizing v with
  | nil => simpa [walkPath] using hv
  | cons k ps ih =>
      cases v with
      | obj fs =>
          rw [wfJ] at hv
          have hstep : walkPath (JVal.obj fs) (k :: ps)
              = walkPath ((lookupField fs k).getD (JVal.obj [])) ps := rfl
          rw [hstep]
          cases h : lookupField fs k with
          | none => exact ih (by simp [wfJ, wfFields])
          | some w => exact ih (by simpa using wfFields_lookup hv h)
      | str s => exact ih (by simp [wfJ, wfFields])
      | num n => exact ih (by simp [wfJ, wfFields])
      | bool b => exact ih (by simp [wfJ, wfFields])
      | null => exact ih (by simp [wfJ, wfFields])
      | arr xs => exact ih (by simp [wfJ, wfFields])

theorem deepDiff_self {v : JVal} (hv : wfJ v = true) (p : String) :
    deepDiff p v v = .empty := by
  cases v with
  | str s => rw [deepDiff]; simp [pyEq_self _ hv]
  | num n => rw [deepDiff]; simp [pyEq_self _ hv]
  | bool b => rw [deepDiff]; simp [pyEq_self _ hv]
  | null => rw [deepDiff]; simp [pyEq_self _ hv]
  | arr xs => rw [deepDiff]; simp [pyEq_self _ hv]
  | obj fs => rw [deepDiff]; simp [pyEq_self _ hv]

/-- Comparing a record against a stored snapshot holding the identical
well-formed value detects no change, in either mode. -/
theorem compare_self {s : SysState} {trial_id : String} {v : JVal}
    (hs : s.snapshots trial_id = .good v) (hv : wfJ v = true) :
    diffTruthy (compare_snapshots hasDD trial_id v s) = false := by
  have hwp : wfJ (v.getD ("protocolSection") (.obj [])) = true :=
    wfJ_getD hv (by simp [wfJ, wfFields]) _
  rw [compare_snapshots, hs]
  cases hasDD with
  | true =>
      simp only [if_pos]
      rw [deepDiff_self hwp]
      rfl
  | false =>
      simp only [Bool.false_eq_true, if_false]
      have hnil : (fields_to_watch.filterMap fun lp =>
          let ov := walkPath (v.getD ("protocolSection") (.obj [])) lp.2
          let nv := walkPath (v.getD ("protocolSection") (.obj [])) lp.2
          if pyEq ov nv then none else some (lp.1, ov, nv)) = [] := by
        rw [List.filterMap_eq_nil_iff]
        intro lp _
        simp only
        rw [pyEq_self _ (wfJ_walkPath hwp lp.2)]
        simp
      rw [hnil]
      rfl

theorem mem_data_append_left {c : Char} {s : String} (t : String)
    (h : c ∈ s.data) : c ∈ (s ++ t).data := by
  rw [String.data_append]
  exact List.mem_append_left _ h

theorem mem_data_append_right {c : Char} (s : String) {t : String}
    (h : c ∈ t.data) : c ∈ (s ++ t).data := by
  rw [String.data_append]
  exact List.mem_append_right _ h

theorem btick_mem_fallbackLine (e : String × JVal × JVal) :
    btick ∈ (fallbackLine e).data := by
  rw [fallbackLine]
  exact mem_data_append_left _ (mem_data_append_left _ (mem_data_append_left _
    (mem_data_append_left _ (mem_data_append_right _ (by decide)))))

theorem btick_mem_vcLine (e : String × JVal × JVal) :
    btick ∈ (vcLine e).data := by
  rw [vcLine]
  exact mem_data_append_left _ (mem_data_append_left _ (mem_data_append_left _
    (mem_data_append_left _ (mem_data_append_left _ (mem_data_append_left _
      (by decide))))))

theorem btick_mem_addLine (p : String) : btick ∈ (addLine p).data := by
  rw [addLine]
  exact mem_data_append_left _ (mem_data_append_left _ (by decide))

theorem btick_mem_remLine (p : String) : btick ∈ (remLine p).data := by
  rw [remLine]
  exact mem_data_append_left _ (mem_data_append_left _ (by decide))

theorem pyJoin_cons (sep x : String) (xs : List String) :
    ∃ t, pyJoin sep (x :: xs) = x ++ t := by
  cases xs with
  | nil => exact ⟨"", (String.append_empty x).symm⟩
  | cons y rest =>
      refine ⟨sep ++ pyJoin sep (y :: rest), ?_⟩
      rw [pyJoin, String.append_assoc]

theorem btick_mem_pyJoin {lines : List String} (hne : lines ≠ [])
    (hall : ∀ l ∈ lines, btick ∈ l.data) :
    btick ∈ (pyJoin ("\n") lines).data := by
  cases lines with
  | nil => exact absurd rfl hne
  | cons x xs =>
      obtain ⟨t, ht⟩ := pyJoin_cons ("\n") x xs
      rw [ht]
      exact mem_data_append_left _ (hall x (by simp))

theorem ne_of_btick {s t : String} (hs : btick ∈ s.data)
    (ht : btick ∉ t.data) : s ≠ t := fun he => ht (he ▸ hs)

/-- In both modes, a truthy diff formats to text that is never the
initial-collection marker (every emitted line contains a backtick). -/
theorem formatDiff_ne_marker {od : Option Diff} (h : diffTruthy od = true) :
    format_diff od ≠ ("Initial data collection") := by
  match od with
  | none => simp [diffTruthy] at h
  | some (.fallback es) =>
      have hne : es ≠ [] := by simpa [diffTruthy] using h
      rw [format_diff, if_neg (by simp [hne])]
      refine ne_of_btick (btick_mem_pyJoin (by simp [hne]) ?_) (by decide)
      intro l hl
      obtain ⟨e, _, he⟩ := List.mem_map.mp hl
      exact he ▸ btick_mem_fallbackLine e
  | some (.deep d) =>
      rw [diffTruthy] at h
      rw [format_diff, if_neg (by simp [h])]
      by_cases hs : (d.values_changed.map vcLine ++ d.dictionary_item_added.map addLine
          ++ d.dictionary_item_removed.map remLine).isEmpty
      · rw [if_pos hs]
        decide
      · rw [if_neg hs]
        refine ne_of_btick (btick_mem_pyJoin (by simpa using hs) ?_) (by decide)
        intro l hl
        rcases List.mem_append.mp hl with hl1 | hl2
        · rcases List.mem_append.mp hl1 with hl3 | hl4
          · obtain ⟨e, _, he⟩ := List.mem_map.mp hl3
            exact he ▸ btick_mem_vcLine e
          · obtain ⟨p, _, hp⟩ := List.mem_map.mp hl4
            exact hp ▸ btick_mem_addLine p
        · obtain ⟨p, _, hp⟩ := List.mem_map.mp hl2
          exact hp ▸ btick_mem_remLine p

/-- A truthy diff never formats to the empty string. -/
theorem formatDiff_ne_empty {od : Option Diff} (h : diffTruthy od = true) :
    format_diff od ≠ ("") := by
  match od with
  | none => simp [diffTruthy] at h
  | some (.fallback es) =>
      have hne : es ≠ [] := by simpa [diffTruthy] using h
      rw [format_diff, if_neg (by simp [hne])]
      refine ne_of_btick (btick_mem_pyJoin (by simp [hne]) ?_) (by decide)
      intro l hl
      obtain ⟨e, _, he⟩ := List.mem_map.mp hl
      exact he ▸ btick_mem_fallbackLine e
  | some (.deep d) =>
      rw [diffTruthy] at h
      rw [format_diff, if_neg (by simp [h])]
      by_cases hs : (d.values_changed.map vcLine ++ d.dictionary_item_added.map addLine
          ++ d.dictionary_item_removed.map remLine).isEmpty
      · rw [if_pos hs]
        decide
      · rw [if_neg hs]
        refine ne_of_btick (btick_mem_pyJoin (by simpa using hs) ?_) (by decide)
        intro l hl
        rcases List.mem_append.mp hl with hl1 | hl2
        · rcases List.mem_append.mp hl1 with hl3 | hl4
          · obtain ⟨e, _, he⟩ := List.mem_map.mp hl3
            exact he ▸ btick_mem_vcLine e
          · obtain ⟨p, _, hp⟩ := List.mem_map.mp hl4
            exact hp ▸ btick_mem_addLine p
        · obtain ⟨p, _, hp⟩ := List.mem_map.mp hl2
          exact hp ▸ btick_mem_remLine p

theorem readHistory_update_self (trial_id : String) (d : String) (now : Int)
    (s : SysState) : readHistory (update_history trial_id d now s) trial_id
      = readHistory s trial_id ++ [{ timestamp := TS.full now, diff := d }] := by
  simp [update_history, readHistory]

theorem readHistory_update_ne {i trial_id : String} (h : i ≠ trial_id)
    (d : String) (now : Int) (s : SysState) :
    readHistory (update_history trial_id d now s) i = readHistory s i := by
  simp [update_history, readHistory, h]

theorem histories_update_self (trial_id : String) (d : String) (now : Int)
    (s : SysState) : (update_history trial_id d now s).histories trial_id
      = .good (readHistory s trial_id ++ [{ timestamp := TS.full now, diff := d }]) := by
  simp [update_history]

theorem readHistory_save (trial_id : String) (v : JVal) (s : SysState)
    (i : String) : readHistory (save_snapshot trial_id v s) i = readHistory s i := rfl

theorem histories_save (trial_id : String) (v : JVal) (s : SysState)
    (i : String) : (save_snapshot trial_id v s).histories i = s.histories i := rfl

theorem process_trial_skip {fetched : Option JVal} {trial : Trial} {s : SysState}
    (hasDD : Bool) (now : Int) (tn : String)
    (h1 : optTruthy fetched = false) (h2 : s.snapshots trial.id = .absent) :
    process_trial hasDD now fetched trial tn s = ((none, none), s) := by
  rw [process_trial]
  simp only [h1, Bool.false_eq_true, if_false, h2]

theorem process_trial_state {f : JVal} (hasDD : Bool) (now : Int)
    (trial : Trial) (tn : String) (s : SysState) (hf : f.truthy = true) :
    (process_trial hasDD now (some f) trial tn s).2
      = save_snapshot trial.id f (histStep hasDD now trial.id f s) := by
  rw [process_trial, histStep]
  simp only [optTruthy, hf, if_true, Bool.true_eq_false, if_false,
    apply_ite (Prod.snd : Report × SysState → SysState)]

theorem process_trial_rep_id {f : JVal} (hasDD : Bool) (now : Int)
    (trial : Trial) (tn : String) (s : SysState) (hf : f.truthy = true) :
    (process_trial hasDD now (some f) trial tn s).1.1.map (fun r => r.id)
      = some trial.id := by
  rw [process_trial]
  simp only [optTruthy, hf, if_true, Bool.true_eq_false, if_false, Option.map_some]
  by_cases hd : diffTruthy (compare_snapshots hasDD trial.id f s) = true
  · simp only [hd, if_true]
    split
    · simp
    · split <;> simp
  · rw [Bool.not_eq_true] at hd
    simp only [hd, Bool.false_eq_true, if_false]
    by_cases habs : s.histories trial.id = FileContent.absent
    · simp only [habs, if_true]
      split
      · simp
      · split <;> simp
    · simp only [habs, if_false]
      split
      · simp
      · split <;> simp

theorem process_trial_monitor {f : JVal} (hasDD : Bool) (now : Int)
    (trial : Trial) (tn : String) (s : SysState) (hf : f.truthy = true) :
    (process_trial hasDD now (some f) trial tn s).1.1.map (fun r => r.monitor_status)
      = some (if (readHistory (histStep hasDD now trial.id f s) trial.id).reverse.any
            (recentQual now) then ("Changed") else ("No Change")) := by
  rw [process_trial, histStep]
  simp only [optTruthy, hf, if_true, Bool.true_eq_false, if_false, Option.map_some]
  by_cases hd : diffTruthy (compare_snapshots hasDD trial.id f s) = true
  · simp only [hd, if_true]
    split
    next hl =>
      rw [List.getLast?_eq_none_iff] at hl
      rw [hl]
      simp
    next lastE hl =>
      split
      next hany => simp [hany]
      next hany => simp [hany]
  · rw [Bool.not_eq_true] at hd
    simp only [hd, Bool.false_eq_true, if_false]
    by_cases habs : s.histories trial.id = FileContent.absent
    · simp only [habs, if_true]
      split
      next hl =>
        rw [List.getLast?_eq_none_iff] at hl
        rw [hl]
        simp
      next lastE hl =>
        split
        next hany => simp [hany]
        next hany => simp [hany]
    · simp only [habs, if_false]
      split
      next hl =>
        rw [List.getLast?_eq_none_iff] at hl
        rw [hl]
        simp
      next lastE hl =>
        split
        next hany => simp [hany]
        next hany => simp [hany]

theorem process_trial_snapshots_ne {i : String} {trial : Trial}
    (hasDD : Bool) (now : Int) (fetched : Option JVal) (tn : String)
    (s : SysState) (hne : i ≠ trial.id) :
    (process_trial hasDD now fetched trial tn s).2.snapshots i = s.snapshots i := by
  rw [process_trial]
  split
  · rfl
  · split
    · rfl
    · simp only [save_snapshot, update_history]
      split
      next h => exact absurd h hne
      next h => split <;> first | rfl | (split <;> rfl)

theorem process_trial_histories_ne {i : String} {trial : Trial}
    (hasDD : Bool) (now : Int) (fetched : Option JVal) (tn : String)
    (s : SysState) (hne : i ≠ trial.id) :
    (process_trial hasDD now fetched trial tn s).2.histories i = s.histories i := by
  rw [process_trial]
  split
  · rfl
  · split
    · rfl
    · simp only [save_snapshot, update_history]
      split
      · simp [hne]
      · split
        · simp [hne]
        · rfl

theorem histStep_not_absent (hasDD : Bool) (now : Int) (trial_id : String)
    (nd : JVal) (s : SysState) :
    (histStep hasDD now trial_id nd s).histories trial_id ≠ .absent := by
  rw [histStep]
  split
  · rw [histories_update_self]; simp
  · split
    · rw [histories_update_self]; simp
    · next h => exact h

theorem histStep_self {hasDD : Bool} {now : Int} {trial_id : String}
    {f : JVal} {s : SysState} (hsnap : s.snapshots trial_id = .good f)
    (hw : wfJ f = true) (hhist : s.histories trial_id ≠ .absent) :
    histStep hasDD now trial_id f s = s := by
  rw [histStep]
  rw [if_neg (by simp [compare_self hsnap hw]), if_neg hhist]

theorem process_trial_init {f : JVal} (hasDD : Bool) (now : Int)
    (trial : Trial) (tn : String) (s : SysState) (hf : f.truthy = true)
    (hsnap : s.snapshots trial.id = .absent)
    (hhist : s.histories trial.id = .absent) :
    (process_trial hasDD now (some f) trial tn s).2.histories trial.id
      = .good [{ timestamp := TS.full now, diff := ("Initial data collection") }] := by
  rw [process_trial_state hasDD now trial tn s hf, histories_save, histStep]
  have hdiff : compare_snapshots hasDD trial.id f s = none := by
    rw [compare_snapshots, hsnap]
  rw [hdiff]
  rw [if_neg (by simp [diffTruthy]), if_pos hhist, histories_update_self]
  simp [readHistory, hhist]

theorem readHistory_set_snapshots (s : SysState)
    (f : String → FileContent JVal) (i : String) :
    readHistory { s with snapshots := f } i = readHistory s i := rfl

theorem process_trial_histories_self (hasDD : Bool) (now : Int)
    (fetched : Option JVal) (trial : Trial) (tn : String) (s : SysState) :
    ∃ tail, readHistory (process_trial hasDD now fetched trial tn s).2 trial.id
      = readHistory s trial.id ++ tail := by
  rw [process_trial]
  split
  · exact ⟨[], by rw [List.append_nil]⟩
  · split
    · exact ⟨[], by rw [List.append_nil]⟩
    · simp only [save_snapshot]
      rw [readHistory_set_snapshots]
      split
      · exact ⟨_, readHistory_update_self trial.id _ now s⟩
      · split
        · exact ⟨_, readHistory_update_self trial.id _ now s⟩
        · exact ⟨[], by rw [List.append_nil]⟩

theorem readHistory_eq_of_histories {a b : SysState} {i : String}
    (h : a.histories i = b.histories i) : readHistory a i = readHistory b i := by
  rw [readHistory, readHistory, h]

/-- C1: Idempotent replay.  Running the per-record pipeline a second time with
fetched data identical to the stored snapshot (which is exactly what the first
run stored) appends no ChangeEvent on the second run — the history file is
unchanged — and the snapshot file content after the second run equals its
content after the first run (the JSON serialization being deterministic). -/
theorem claim_C1 (hasDD : Bool) (now1 now2 : Int) (f : JVal) (trial : Trial)
    (tn : String) (s0 : SysState) (hf : f.truthy = true) (hw : wfJ f = true) :
    (process_trial hasDD now2 (some f) trial tn
        (process_trial hasDD now1 (some f) trial tn s0).2).2.histories trial.id
      = (process_trial hasDD now1 (some f) trial tn s0).2.histories trial.id
    ∧ (process_trial hasDD now2 (some f) trial tn
        (process_trial hasDD now1 (some f) trial tn s0).2).2.snapshots trial.id
      = (process_trial hasDD now1 (some f) trial tn s0).2.snapshots trial.id := by
  have hs1 := process_trial_state hasDD now1 trial tn s0 hf
  have hsnap : (process_trial hasDD now1 (some f) trial tn s0).2.snapshots trial.id
      = .good f := by
    rw [hs1]
    simp [save_snapshot]
  have hhist : (process_trial hasDD now1 (some f) trial tn s0).2.histories trial.id
      ≠ .absent := by
    rw [hs1, histories_save]
    exact histStep_not_absent hasDD now1 trial.id f s0
  have hs2 := process_trial_state hasDD now2 trial tn
    (process_trial hasDD now1 (some f) trial tn s0).2 hf
  have hstep : histStep hasDD now2 trial.id f
      (process_trial hasDD now1 (some f) trial tn s0).2
      = (process_trial hasDD now1 (some f) trial tn s0).2 :=
    histStep_self hsnap hw hhist
  rw [hs2, hstep]
  exact ⟨histories_save _ _ _ _, by simp [save_snapshot, hsnap]⟩

theorem claim_C1_witness :
    sampleRecord.truthy = true ∧ wfJ sampleRecord = true ∧
    ((process_trial false 2000 (some sampleRecord) sampleTrial ("TIGIT")
        (process_trial false 1000 (some sampleRecord) sampleTrial ("TIGIT")
          emptyState).2).2.histories sampleTrial.id
      = (process_trial false 1000 (some sampleRecord) sampleTrial ("TIGIT")
          emptyState).2.histories sampleTrial.id
    ∧ (process_trial false 2000 (some sampleRecord) sampleTrial ("TIGIT")
        (process_trial false 1000 (some sampleRecord) sampleTrial ("TIGIT")
          emptyState).2).2.snapshots sampleTrial.id
      = (process_trial false 1000 (some sampleRecord) sampleTrial ("TIGIT")
          emptyState).2.snapshots sampleTrial.id) :=
  ⟨by decide, by decide,
   claim_C1 false 1000 2000 sampleRecord sampleTrial ("TIGIT") emptyState
     (by decide) (by decide)⟩

/-- C2: First fetch initializes, never "changes".  For an id with no prior
snapshot file and no prior history file (the first-ever successful fetch),
one successful fetch leaves the record history holding exactly one
ChangeEvent, whose description is the literal initial-collection marker,
regardless of the fetched content. -/
theorem claim_C2 (hasDD : Bool) (now : Int) (f : JVal) (trial : Trial)
    (tn : String) (s : SysState) (hf : f.truthy = true)
    (hsnap : s.snapshots trial.id = .absent)
    (hhist : s.histories trial.id = .absent) :
    (process_trial hasDD now (some f) trial tn s).2.histories trial.id
      = .good [{ timestamp := TS.full now, diff := ("Initial data collection") }] :=
  process_trial_init hasDD now trial tn s hf hsnap hhist

theorem claim_C2_witness :
    sampleRecord2.truthy = true ∧ emptyState.snapshots sampleTrial.id = .absent ∧
    (process_trial true 1000 (some sampleRecord2) sampleTrial ("TIGIT")
        emptyState).2.histories sampleTrial.id
      = .good [{ timestamp := TS.full 1000, diff := ("Initial data collection") }] :=
  ⟨by decide, rfl,
   claim_C2 true 1000 sampleRecord2 sampleTrial ("TIGIT") emptyState
     (by decide) rfl rfl⟩

/-- C5: Ledger corruption recovery.  When the history file for an id holds
malformed JSON, a single `update_history` call yields a history holding
exactly the newly appended entry: the corrupt prior content is discarded,
not merged (and, the model being total, no exception is raised). -/
theorem claim_C5 (trial_id : String) (d : String) (now : Int) (s : SysState)
    (h : s.histories trial_id = .corrupt) :
    (update_history trial_id d now s).histories trial_id
      = .good [{ timestamp := TS.full now, diff := d }] := by
  rw [histories_update_self]
  simp [readHistory, h]

theorem claim_C5_witness :
    corruptHistState.histories ("NCT00000001") = .corrupt ∧
    (update_history ("NCT00000001") ("Status: changed") 1000
        corruptHistState).histories ("NCT00000001")
      = .good [{ timestamp := TS.full 1000, diff := ("Status: changed") }] :=
  ⟨by decide,
   claim_C5 ("NCT00000001") ("Status: changed") 1000 corruptHistState (by decide)⟩

/-- C6: Group-ledger no-op.  When the group ledger already holds at least one
event and no report of the current run is flagged changed,
`update_target_history` neither appends nor writes: the state is unchanged. -/
theorem claim_C6 (target_name : String) (reports : List Report) (now : Int)
    (s : SysState) (h : List GEntry)
    (hh : s.targetHistories (pyLower target_name) = .good h) (hne : h ≠ [])
    (hrep : ∀ r ∈ reports, r.changed_today = false) :
    update_target_history target_name reports now s = s := by
  have hfil : reports.filter (fun r => r.changed_today) = [] :=
    List.filter_eq_nil_iff.mpr fun r hr => by simp [hrep r hr]
  have hemp : h.isEmpty = false := by simpa using hne
  rw [update_target_history]
  simp [hh, hfil, hemp]

theorem claim_C6_witness :
    groupState.targetHistories (pyLower ("TIGIT"))
      = .good [{ timestamp := TS.full 500,
                 event := ("Initial data collection: 1 trials found.") }] ∧
    update_target_history ("TIGIT") [sampleReport] 2000 groupState = groupState :=
  ⟨by decide,
   claim_C6 ("TIGIT") [sampleReport] 2000 groupState
     [{ timestamp := TS.full 500,
        event := ("Initial data collection: 1 trials found.") }]
     (by decide) (by decide) (by decide)⟩

/-- C7: Record-ledger state machine.  (1) When an id has no ledger file and no
snapshot (the reachable fresh state), processing either leaves the ledger
absent (fetch failed, nothing appended) or makes the very first append, which
is always tagged with the initial-collection marker.  (2) No transition
removes entries: for every id, the readable event sequence after processing
extends the one before it. -/
theorem claim_C7 (hasDD : Bool) (now : Int) (fetched : Option JVal)
    (trial : Trial) (tn : String) (s : SysState) :
    (s.histories trial.id = .absent → s.snapshots trial.id = .absent →
      ((process_trial hasDD now fetched trial tn s).2.histories trial.id = .absent ∨
        (process_trial hasDD now fetched trial tn s).2.histories trial.id
          = .good [{ timestamp := TS.full now, diff := ("Initial data collection") }]))
    ∧ (∀ i, ∃ tail, readHistory (process_trial hasDD now fetched trial tn s).2 i
        = readHistory s i ++ tail) := by
  constructor
  · intro hh hs
    cases hopt : optTruthy fetched with
    | false =>
        left
        rw [process_trial_skip hasDD now tn hopt hs]
        exact hh
    | true =>
        right
        cases fetched with
        | none => simp [optTruthy] at hopt
        | some f =>
            exact process_trial_init hasDD now trial tn s
              (by simpa [optTruthy] using hopt) hs hh
  · intro i
    by_cases hi : i = trial.id
    · subst hi
      exact process_trial_histories_self hasDD now fetched trial tn s
    · exact ⟨[], by
        rw [List.append_nil]
        exact readHistory_eq_of_histories
          (process_trial_histories_ne hasDD now fetched tn s hi)⟩

theorem claim_C7_witness :
    (emptyState.histories sampleTrial.id = .absent) ∧
    ((process_trial false 1000 (some sampleRecord) sampleTrial ("TIGIT")
        emptyState).2.histories sampleTrial.id = .absent ∨
      (process_trial false 1000 (some sampleRecord) sampleTrial ("TIGIT")
        emptyState).2.histories sampleTrial.id
        = .good [{ timestamp := TS.full 1000, diff := ("Initial data collection") }]) ∧
    (∃ tail, readHistory (process_trial false 1000 (some sampleRecord) sampleTrial
        ("TIGIT") emptyState).2 sampleTrial.id
      = readHistory emptyState sampleTrial.id ++ tail) :=
  ⟨rfl,
   (claim_C7 false 1000 (some sampleRecord) sampleTrial ("TIGIT") emptyState).1 rfl rfl,
   (claim_C7 false 1000 (some sampleRecord) sampleTrial ("TIGIT") emptyState).2
     sampleTrial.id⟩

theorem recentQual_iff {now : Int} {e : HEntry} :
    recentQual now e = true ↔
      (e.diff ≠ ("Initial data collection")
        ∧ ∃ t, parseTS e.timestamp = some t ∧ now - thirtyDays < t) := by
  rw [recentQual]
  cases h : parseTS e.timestamp <;> simp [h]

/-- C3: 30-day monitor status.  For a processed record, `monitor_status` is
"Changed" iff a difference was found in the current run, or some ChangeEvent
now in the record's history other than the initial-collection marker has a
parseable timestamp strictly within the trailing 30-day window from now. -/
theorem claim_C3 (hasDD : Bool) (now : Int) (f : JVal) (trial : Trial)
    (tn : String) (s : SysState) (hf : f.truthy = true) :
    ((process_trial hasDD now (some f) trial tn s).1.1.map
        (fun r => r.monitor_status) = some ("Changed"))
      ↔ (diffTruthy (compare_snapshots hasDD trial.id f s) = true
        ∨ ∃ e ∈ readHistory (process_trial hasDD now (some f) trial tn s).2 trial.id,
            e.diff ≠ ("Initial data collection")
            ∧ ∃ t, parseTS e.timestamp = some t ∧ now - thirtyDays < t) := by
  have hread : readHistory (process_trial hasDD now (some f) trial tn s).2 trial.id
      = readHistory (histStep hasDD now trial.id f s) trial.id := by
    rw [process_trial_state hasDD now trial tn s hf, readHistory_save]
  rw [process_trial_monitor hasDD now trial tn s hf, hread]
  have hlhs : (some (if (readHistory (histStep hasDD now trial.id f s)
        trial.id).reverse.any (recentQual now) then ("Changed") else ("No Change"))
      = some ("Changed"))
      ↔ (readHistory (histStep hasDD now trial.id f s) trial.id).reverse.any
          (recentQual now) = true := by
    cases hc : (readHistory (histStep hasDD now trial.id f s) trial.id).reverse.any
      (recentQual now) <;> simp [hc]
  rw [hlhs, List.any_reverse, List.any_eq_true]
  constructor
  · rintro ⟨e, he, hq⟩
    exact Or.inr ⟨e, he, recentQual_iff.mp hq⟩
  · rintro (hd | ⟨e, he, hq⟩)
    · refine ⟨HEntry.mk (TS.full now)
          (format_diff (compare_snapshots hasDD trial.id f s)), ?_, ?_⟩
      · rw [histStep, if_pos hd, readHistory_update_self]
        exact List.mem_append_right _ (by simp)
      · refine recentQual_iff.mpr ⟨formatDiff_ne_marker hd, now, rfl, ?_⟩
        rw [thirtyDays]
        omega
    · exact ⟨e, he, recentQual_iff.mpr hq⟩

theorem claim_C3_witness :
    ((process_trial false 8640000 (some sampleRecord) sampleTrial ("TIGIT")
        histState10).1.1.map (fun r => r.monitor_status) = some ("Changed"))
    ∧ ((process_trial false 8640000 (some sampleRecord) sampleTrial ("TIGIT")
        histState40).1.1.map (fun r => r.monitor_status) ≠ some ("Changed")) :=
  ⟨(claim_C3 false 8640000 sampleRecord sampleTrial ("TIGIT") histState10
      (by decide)).mpr (by decide),
   fun h => absurd ((claim_C3 false 8640000 sampleRecord sampleTrial ("TIGIT")
      histState40 (by decide)).mp h) (by decide)⟩

theorem filterMap_ite {α β : Type} (l : List α) (p : α → Bool) (g : α → β) :
    (l.filterMap fun a => if p a then none else some (g a))
      = (l.filter fun a => !p a).map g := by
  induction l with
  | nil => rfl
  | cons x xs ih => by_cases h : p x <;> simp [h, ih]

/-- C4: Fallback detector correctness.  With a readable prior snapshot and
DeepDiff unavailable, `compare_snapshots` returns the no-difference value
`none` exactly when every watched field-path evaluates equal (Python `==`)
in the old and new protocol sections; and any returned fallback difference
is exactly one entry per watched path whose values differ, carrying the
path's label together with its old and new values. -/
theorem claim_C4 (s : SysState) (trial_id : String) (old_data new_data : JVal)
    (hs : s.snapshots trial_id = .good old_data) :
    (compare_snapshots false trial_id new_data s = none ↔
      ∀ lp ∈ fields_to_watch,
        pyEq (walkPath (old_data.getD ("protocolSection") (.obj [])) lp.2)
          (walkPath (new_data.getD ("protocolSection") (.obj [])) lp.2) = true)
    ∧ ∀ es, compare_snapshots false trial_id new_data s = some (.fallback es) →
        es = (fields_to_watch.filter fun lp =>
            !pyEq (walkPath (old_data.getD ("protocolSection") (.obj [])) lp.2)
              (walkPath (new_data.getD ("protocolSection") (.obj [])) lp.2)).map
          fun lp => (lp.1,
            walkPath (old_data.getD ("protocolSection") (.obj [])) lp.2,
            walkPath (new_data.getD ("protocolSection") (.obj [])) lp.2)
    := by
  rw [compare_snapshots, hs]
  simp only [Bool.false_eq_true, if_false]
  have hiff : (fields_to_watch.filterMap fun lp =>
      if pyEq (walkPath (old_data.getD ("protocolSection") (.obj [])) lp.2)
          (walkPath (new_data.getD ("protocolSection") (.obj [])) lp.2) then none
      else some (lp.1,
        walkPath (old_data.getD ("protocolSection") (.obj [])) lp.2,
        walkPath (new_data.getD ("protocolSection") (.obj [])) lp.2)) = []
      ↔ ∀ lp ∈ fields_to_watch,
          pyEq (walkPath (old_data.getD ("protocolSection") (.obj [])) lp.2)
            (walkPath (new_data.getD ("protocolSection") (.obj [])) lp.2) = true := by
    rw [List.filterMap_eq_nil_iff]
    constructor
    · intro h lp hlp
      have h1 := h lp hlp
      by_cases hc : pyEq (walkPath (old_data.getD ("protocolSection") (.obj [])) lp.2)
          (walkPath (new_data.getD ("protocolSection") (.obj [])) lp.2)
      · exact hc
      · rw [if_neg hc] at h1
        cases h1
    · intro h lp hlp
      rw [if_pos (h lp hlp)]
  constructor
  · constructor
    · intro h
      by_cases hemp : (fields_to_watch.filterMap fun lp =>
          if pyEq (walkPath (old_data.getD ("protocolSection") (.obj [])) lp.2)
              (walkPath (new_data.getD ("protocolSection") (.obj [])) lp.2) then none
          else some (lp.1,
            walkPath (old_data.getD ("protocolSection") (.obj [])) lp.2,
            walkPath (new_data.getD ("protocolSection") (.obj [])) lp.2)).isEmpty
      · exact hiff.mp (by simpa using hemp)
      · rw [if_neg (by simpa using hemp)] at h
        cases h
    · intro h
      rw [if_pos (List.isEmpty_iff.mpr (hiff.mpr h))]
  · intro es h
    by_cases hemp : (fields_to_watch.filterMap fun lp =>
        if pyEq (walkPath (old_data.getD ("protocolSection") (.obj [])) lp.2)
            (walkPath (new_data.getD ("protocolSection") (.obj [])) lp.2) then none
        else some (lp.1,
          walkPath (old_data.getD ("protocolSection") (.obj [])) lp.2,
          walkPath (new_data.getD ("protocolSection") (.obj [])) lp.2)).isEmpty
    · rw [if_pos hemp] at h
      cases h
    · rw [if_neg hemp] at h
      have hes := (Option.some.injEq _ _).mp h
      cases hes
      exact (filterMap_ite fields_to_watch _ _).symm ▸ filterMap_ite fields_to_watch _ _

theorem claim_C4_witness :
    histState10.snapshots ("NCT00000001") = .good sampleRecord ∧
    compare_snapshots false ("NCT00000001") sampleRecord2 histState10
      = some (.fallback [(("Status"), JVal.str ("RECRUITING"),
          JVal.str ("COMPLETED"))]) ∧
    [(("Status"), JVal.str ("RECRUITING"), JVal.str ("COMPLETED"))]
      = (fields_to_watch.filter fun lp =>
          !pyEq (walkPath (sampleRecord.getD ("protocolSection") (.obj [])) lp.2)
            (walkPath (sampleRecord2.getD ("protocolSection") (.obj [])) lp.2)).map
        fun lp => (lp.1,
          walkPath (sampleRecord.getD ("protocolSection") (.obj [])) lp.2,
          walkPath (sampleRecord2.getD ("protocolSection") (.obj [])) lp.2) :=
  ⟨by decide, by decide,
   (claim_C4 histState10 ("NCT00000001") sampleRecord sampleRecord2
     (by decide)).2 _ (by decide)⟩

/-- C9: In full (DeepDiff) mode, a non-empty difference object holding none
of the keys `values_changed`, `dictionary_item_added` or
`dictionary_item_removed` formats to the literal string
"Minor formatting updates." — and only a falsy (empty or null) difference
formats to the empty string. -/
theorem claim_C9 (d : DeepDiffResult) :
    (d.truthy = true → d.values_changed = [] → d.dictionary_item_added = [] →
      d.dictionary_item_removed = [] →
      format_diff (some (.deep d)) = ("Minor formatting updates."))
    ∧ (format_diff (some (.deep d)) = ("") ↔ d.truthy = false)
    ∧ format_diff none = ("") := by
  refine ⟨?_, ⟨?_, ?_⟩, rfl⟩
  · intro ht h1 h2 h3
    rw [format_diff, if_neg (by simp [ht]), h1, h2, h3]
    simp
  · intro h
    by_contra hne
    rw [Bool.not_eq_false] at hne
    exact @formatDiff_ne_empty (some (.deep d))
      (by simpa [diffTruthy] using hne) h
  · intro h
    rw [format_diff, if_pos (by simp [h])]

theorem claim_C9_witness :
    DeepDiffResult.truthy ⟨[], [], [], [("root: type changed")]⟩ = true ∧
    format_diff (some (.deep ⟨[], [], [], [("root: type changed")]⟩))
      = ("Minor formatting updates.") :=
  ⟨by decide,
   (claim_C9 ⟨[], [], [], [("root: type changed")]⟩).1 (by decide) rfl rfl rfl⟩

/-- C10: `flatten_dict` is not injective on key paths.  In the record
`{"protocolSection": {"fooModule": 1}, "fooModule": 2}` the two distinct
nested paths `protocolSection.fooModule` and `fooModule` both flatten to the
key "foo" (section prefix stripped, "Module" suffix removed), so the items
list carries the key twice and the final dict keeps only one value: the
value 1 is silently overwritten by 2 in the flattened row used for CSV
export. -/
theorem claim_C10 :
    flattenItems [(("protocolSection"), .obj [(("fooModule"), .num 1)]),
        (("fooModule"), .num 2)] ("") ("_")
      = [(("foo"), .num 1), (("foo"), .num 2)]
    ∧ flatten_dict [(("protocolSection"), .obj [(("fooModule"), .num 1)]),
        (("fooModule"), .num 2)] ("") ("_")
      = [(("foo"), .num 2)] := by
  constructor <;> decide

theorem process_trial_some_rep {f : JVal} (hasDD : Bool) (now : Int)
    (trial : Trial) (tn : String) (s : SysState) (hf : f.truthy = true) :
    ∃ rep, (process_trial hasDD now (some f) trial tn s).1.1 = some rep
      ∧ rep.id = trial.id := by
  cases hr : (process_trial hasDD now (some f) trial tn s).1.1 with
  | none =>
      have h := process_trial_rep_id hasDD now trial tn s hf
      rw [hr] at h
      cases h
  | some rep =>
      have h := process_trial_rep_id hasDD now trial tn s hf
      rw [hr] at h
      exact ⟨rep, rfl, by simpa using h⟩

theorem groupStep_success {fetch : String → Option JVal} {t : Trial} {v : JVal}
    (hasDD : Bool) (now : Int) (tn : String) (accR : List Report)
    (accW : List (List (String × JVal))) (s : SysState)
    (hv : fetch t.id = some v) (htv : v.truthy = true) :
    ∃ rep raws, rep.id = t.id ∧
      groupStep hasDD now fetch tn (accR, accW, s) t
        = (accR ++ [rep], raws, (process_trial hasDD now (some v) t tn s).2) := by
  obtain ⟨rep, hrep, hrepid⟩ := process_trial_some_rep hasDD now t tn s htv
  exact ⟨rep, _, hrepid, by rw [groupStep, hv, hrep]⟩

theorem groupStep_skip {fetch : String → Option JVal} {t : Trial}
    (hasDD : Bool) (now : Int) (tn : String) (accR : List Report)
    (accW : List (List (String × JVal))) (s : SysState)
    (hfn : fetch t.id = none) (hsn : s.snapshots t.id = .absent) :
    groupStep hasDD now fetch tn (accR, accW, s) t = (accR, accW, s) := by
  rw [groupStep, hfn, @process_trial_skip none t s hasDD now tn rfl hsn]

theorem groupFold_ids (hasDD : Bool) (now : Int) (fetch : String → Option JVal)
    (tn : String) :
    ∀ (trials : List Trial) (accR : List Report)
      (accW : List (List (String × JVal))) (s : SysState),
      (trials.map (fun t => t.id)).Nodup →
      (∀ t ∈ trials, fetchOK fetch t = true ∨
        (fetch t.id = none ∧ s.snapshots t.id = .absent)) →
      (trials.foldl (groupStep hasDD now fetch tn) (accR, accW, s)).1.map
          (fun r => r.id)
        = accR.map (fun r => r.id)
          ++ (trials.filter (fetchOK fetch)).map (fun t => t.id) := by
  intro trials
  induction trials with
  | nil =>
      intro accR accW s _ _
      simp
  | cons t ts ih =>
      intro accR accW s hnd hok
      rw [List.map_cons] at hnd
      have hnotin := (List.nodup_cons.mp hnd).1
      have hnd2 := (List.nodup_cons.mp hnd).2
      rw [List.foldl_cons]
      rcases hok t (by simp) with hfo | ⟨hfn, hsn⟩
      · obtain ⟨v, hv, htv⟩ : ∃ v, fetch t.id = some v ∧ v.truthy = true := by
          rw [fetchOK] at hfo
          cases hfetch : fetch t.id with
          | none => rw [hfetch] at hfo; cases hfo
          | some v => rw [hfetch] at hfo; exact ⟨v, rfl, hfo⟩
        obtain ⟨rep, raws, hrepid, hstep⟩ :=
          groupStep_success hasDD now tn accR accW s hv htv
        rw [hstep]
        rw [ih (accR ++ [rep]) raws _ hnd2 ?_]
        · rw [List.filter_cons, if_pos hfo]
          simp [hrepid]
        · intro u hu
          rcases hok u (by simp [hu]) with h | ⟨h1, h2⟩
          · exact Or.inl h
          · refine Or.inr ⟨h1, ?_⟩
            rw [process_trial_snapshots_ne hasDD now (some v) tn s
              (fun he => hnotin (he ▸ List.mem_map_of_mem (fun x => x.id) hu))]
            exact h2
      · rw [groupStep_skip hasDD now tn accR accW s hfn hsn]
        rw [ih accR accW s hnd2 (fun u hu => hok u (by simp [hu]))]
        rw [List.filter_cons, if_neg (by rw [fetchOK, hfn]; exact Bool.false_ne_true)]

/-- C8: Failure isolation in the group pipeline.  When every trial of a group
either fetches successfully or fails outright (fetch returns null and no
local snapshot fallback exists), the aggregate report list holds exactly one
entry per successfully processed trial — in particular none for the failed
ones — and, the model being a total function, no exception escapes the
group loop. -/
theorem claim_C8 (hasDD : Bool) (now : Int) (fetch : String → Option JVal)
    (tn : String) (trials : List Trial) (s : SysState)
    (hnd : (trials.map (fun t => t.id)).Nodup)
    (hok : ∀ t ∈ trials, fetchOK fetch t = true ∨
      (fetch t.id = none ∧ s.snapshots t.id = .absent)) :
    (processGroup hasDD now fetch tn trials s).1.1.map (fun r => r.id)
      = (trials.filter (fetchOK fetch)).map (fun t => t.id) := by
  have h := groupFold_ids hasDD now fetch tn trials [] [] s hnd hok
  simpa [processGroup] using h

theorem claim_C8_witness :
    (processGroup false 1000 fetch10 ("TIGIT") trials10 emptyState).1.1.map
        (fun r => r.id)
      = (trials10.filter (fetchOK fetch10)).map (fun t => t.id)
    ∧ ((trials10.filter (fetchOK fetch10)).map (fun t => t.id)).length = 7 :=
  ⟨claim_C8 false 1000 fetch10 ("TIGIT") trials10 emptyState (by decide)
     (by decide), by decide⟩
